import Mathlib

/-!
Verification of the chairlift backend module (`src/chairlift/core/backend.py`):
a shallow embedding of the script runner, the error-reporting channel and the
deferred-action registry, together with theorems about their contracts.

Modelling conventions:
- Module-level mutable state is passed explicitly.  The error channel state
  (`errors` list and `_error_count`) is an `ErrState`; the deferred-action
  dictionary `_deferred_actions` is an association list in insertion order
  (Python dicts iterate in insertion order); subscriber lists are lists of
  opaque handles (`Nat`).
- The outside world (child processes) is an oracle inside `Env`: `exec` models
  `subprocess.Popen` + `communicate` (combined stdout/stderr text and return
  code), `execStream` models the line-buffered streaming `Popen` (the list of
  lines read from the pipe and the return code after `wait`).
- Side effects on observers are returned as explicit traces: error-subscriber
  deliveries (`ErrDelivery`), progress broadcasts (`ProgressEvent`), and the
  strings handed to a streaming line callback.
- `print`, `logging` and `time.sleep` calls are not modelled (pure console
  output and timing, observationally irrelevant to the claims).
-/

namespace Chairlift

/-- `ProgressState` enum from backend.py. -/
inductive ProgressState
  | Initialized
  | Running
  | Finished
  | Failed
deriving DecidableEq, Repr

/-- The `action_info` dictionary `{"app_id": id, "app_name": name}` built by
`install_flatpak_deferred`. -/
structure ActionInfo where
  app_id : String
  app_name : String
deriving DecidableEq, Repr

/-- Result of `process.communicate()` for a blocking run: the combined
stdout/stderr text and the process return code. -/
structure ProcResult where
  output : String
  returncode : Int
deriving DecidableEq, Repr

/-- Result of a streaming run: the successive lines read from the pipe and the
return code observed by `process.wait()`. -/
structure StreamResult where
  lines : List String
  returncode : Int
deriving DecidableEq, Repr

/-- The ambient configuration and process-spawning oracle: `dry_run` and
`script_base_path` globals, plus the behaviour of any child process the
runner might spawn. -/
structure Env where
  dry_run : Bool
  script_base_path : Option String
  exec : List String → Option String → ProcResult
  execStream : List String → StreamResult

/-- The error channel state: the append-only `errors` list and the
`_error_count` counter. -/
structure ErrState where
  errors : List String
  error_count : Nat
deriving DecidableEq, Repr

/-- One invocation of an error subscriber callback:
`callback(script_name, command, _error_count)`. -/
structure ErrDelivery where
  subscriber : Nat
  script_name : String
  command : List String
  index : Nat
deriving DecidableEq, Repr

/-- `os.path.join(base, name)` for the cases arising here: an absolute `name`
replaces `base`; otherwise a single separator is inserted unless `base`
already ends in one or is empty. -/
def os_path_join (base name : String) : String :=
  if name.startsWith "/" then name
  else if base.endsWith "/" || base = "" then base ++ name
  else base ++ "/" ++ name

/-- `report_error(script_name, command, message)`: appends `message` to the
error log, invokes every error subscriber with the current `_error_count`,
then increments the counter.  Returns the new state and the deliveries made
to subscribers. -/
def report_error (subs : List Nat) (script_name : String) (command : List String)
    (message : String) (s : ErrState) : ErrState × List ErrDelivery :=
  (⟨s.errors ++ [message], s.error_count + 1⟩,
   subs.map (fun c => ⟨c, script_name, command, s.error_count⟩))

/-- The command list built by the runners: `[script_path] + args`, prefixed
with `pkexec` when `root` is set. -/
def build_command (base name : String) (args : List String) (root : Bool) :
    List String :=
  let script_path := os_path_join base name
  if root then "pkexec" :: script_path :: args else script_path :: args

/-- `run_script(name, args, root, input_data)`: dry-run and missing-base-path
short circuits, then spawn, capture combined output, and report an error on a
non-zero exit code.  Returns the boolean result, the error state and the
error-subscriber deliveries. -/
def run_script (env : Env) (subs : List Nat) (name : String) (args : List String)
    (root : Bool) (input_data : Option String) (es : ErrState) :
    Bool × ErrState × List ErrDelivery :=
  if env.dry_run then (true, es, [])
  else
    match env.script_base_path with
    | none => (true, es, [])
    | some base =>
      let command := build_command base name args root
      let pr := env.exec command input_data
      if pr.returncode ≠ 0 then
        let r := report_error subs name command pr.output es
        (false, r.1, r.2)
      else (true, es, [])

/-- `run_script_with_output(name, args, root, input_data)`: like `run_script`
but also returns the captured stdout (`result or ""`). -/
def run_script_with_output (env : Env) (subs : List Nat) (name : String)
    (args : List String) (root : Bool) (input_data : Option String)
    (es : ErrState) : (Bool × String) × ErrState × List ErrDelivery :=
  if env.dry_run then ((true, ""), es, [])
  else
    match env.script_base_path with
    | none => ((true, ""), es, [])
    | some base =>
      let command := build_command base name args root
      let pr := env.exec command input_data
      if pr.returncode ≠ 0 then
        let r := report_error subs name command pr.output es
        ((false, pr.output), r.1, r.2)
      else ((true, pr.output), es, [])

/-- One structured progress event of the streaming dry-run simulation, as a
Python dict literal with a `type` discriminator. -/
inductive StreamEvent
  | message (message : String)
  | step (step : Nat) (total_steps : Nat) (step_name : String)
  | progress (percent : Nat) (message : String)
  | complete (message : String)
deriving DecidableEq, Repr

/-- `json.dumps` on the dict literals of `fake_events` (insertion-ordered
keys, default separators). -/
def jsonDumps : StreamEvent → String
  | .message m =>
      "\x7b\"type\": \"message\", \"message\": \"" ++ m ++ "\"\x7d"
  | .step s t n =>
      "\x7b\"type\": \"step\", \"step\": " ++ toString s ++
      ", \"total_steps\": " ++ toString t ++
      ", \"step_name\": \"" ++ n ++ "\"\x7d"
  | .progress p m =>
      "\x7b\"type\": \"progress\", \"percent\": " ++ toString p ++
      ", \"message\": \"" ++ m ++ "\"\x7d"
  | .complete m =>
      "\x7b\"type\": \"complete\", \"message\": \"" ++ m ++ "\"\x7d"

/-- The canned `fake_events` list of the streaming dry-run branch. -/
def fake_events : List StreamEvent :=
  [ .message "Dry run: Downloading update...",
    .step 1 4 "Clearing target partition",
    .step 2 4 "Pulling container image",
    .step 3 4 "Extracting container",
    .progress 25 "Layer 1/4",
    .progress 50 "Layer 2/4",
    .progress 75 "Layer 3/4",
    .progress 100 "Layer 4/4",
    .step 4 4 "Updating bootloader",
    .complete "Update complete (dry run)" ]

/-- Whitespace characters recognized by Python's `str.strip()` (ASCII
range, which covers the script output modelled here). -/
def pyIsSpace (c : Char) : Bool :=
  c == ' ' || c == '\t' || c == '\n' || c == '\x0d' || c == '\x0b' || c == '\x0c'

/-- Python's `line.strip()`: drops leading and trailing whitespace. -/
def pystrip (s : String) : String :=
  ⟨((s.data.dropWhile pyIsSpace).reverse.dropWhile pyIsSpace).reverse⟩

/-- `run_script_streaming(name, args, root, line_callback)`: in dry-run,
feeds `json.dumps` of each canned event to the callback and returns `True`;
with no base path, returns `False`; otherwise spawns the process, strips each
line and passes every non-empty stripped line to the callback in order, then
reports an error if the exit code is non-zero.  `has_callback` models whether
`line_callback` is not `None`; the last component is the list of strings the
callback receives. -/
def run_script_streaming (env : Env) (subs : List Nat) (name : String)
    (args : List String) (root : Bool) (has_callback : Bool) (es : ErrState) :
    Bool × ErrState × List ErrDelivery × List String :=
  if env.dry_run then
    (true, es, [], if has_callback then fake_events.map jsonDumps else [])
  else
    match env.script_base_path with
    | none => (false, es, [], [])
    | some base =>
      let command := build_command base name args root
      let sr := env.execStream command
      let lines :=
        if has_callback then
          (sr.lines.map pystrip).filter (fun l => !(l == ""))
        else []
      if sr.returncode ≠ 0 then
        let r := report_error subs name command
          ("Script exited with code " ++ toString sr.returncode) es
        (false, r.1, r.2, lines)
      else (true, es, [], lines)

/-- One entry of the `_deferred_actions` dict: the stored `action_id`, the
optional `info` value (`Option` models presence of the `"info"` key), and the
flatpak id captured by the stored closure (`install_flatpak_deferred` is the
only producer of entries, so the closure is always
`_run_function_with_progress(action_id, uid, action_info, _install_flatpak, id)`). -/
structure DeferredAction where
  action_id : String
  info : Option ActionInfo
  app_id : String
deriving DecidableEq, Repr

/-- The `_deferred_actions` dictionary, keyed by `uid`, in insertion order. -/
abbrev Registry := List (String × DeferredAction)

/-- Python dict assignment `d[k] = v`: overwrite in place if the key exists,
otherwise append at the end. -/
def dictInsert (k : String) (v : DeferredAction) : Registry → Registry
  | [] => [(k, v)]
  | (k1, v1) :: rest =>
      if k1 = k then (k, v) :: rest else (k1, v1) :: dictInsert k v rest

/-- One `report_progress(id, uid, state, info)` broadcast. -/
structure ProgressEvent where
  id : String
  uid : String
  state : ProgressState
  info : Option ActionInfo
deriving DecidableEq, Repr

/-- `_install_flatpak(id)`: `run_script("flatpak", [id])`. -/
def _install_flatpak (env : Env) (subs : List Nat) (id : String) (es : ErrState) :
    Bool × ErrState × List ErrDelivery :=
  run_script env subs "flatpak" [id] false none es

/-- `_run_function_with_progress(action_id, uid, action_info, function, *args)`
applied to the already-evaluated function result: broadcasts `Running`, runs
the function, then broadcasts `Failed` or `Finished` depending on its boolean
result.  Returns the error state, the error deliveries of the function, and
the progress broadcasts in order. -/
def _run_function_with_progress (action_id uid : String)
    (action_info : Option ActionInfo) (result : Bool × ErrState × List ErrDelivery) :
    ErrState × List ErrDelivery × List ProgressEvent :=
  let tail : List ProgressEvent :=
    if result.1 then [⟨action_id, uid, .Finished, action_info⟩]
    else [⟨action_id, uid, .Failed, action_info⟩]
  (result.2.1, result.2.2, ⟨action_id, uid, .Running, action_info⟩ :: tail)

/-- `install_flatpak_deferred(id, name)`: stores the action under
`uid = "install_flatpak" + id` and broadcasts `Initialized`. -/
def install_flatpak_deferred (id name : String) (r : Registry) :
    Registry × List ProgressEvent :=
  let action_id := "install_flatpak"
  let uid := action_id ++ id
  let action_info : ActionInfo := ⟨id, name⟩
  (dictInsert uid ⟨action_id, some action_info, id⟩ r,
   [⟨action_id, uid, .Initialized, some action_info⟩])

/-- `clear_flatpak_deferred()`: rebuilds the dict keeping exactly the entries
whose `action_id` differs from `"install_flatpak"`. -/
def clear_flatpak_deferred (r : Registry) : Registry :=
  r.filter (fun p => !(p.2.action_id == "install_flatpak"))

/-- The loop body of `start_deferred_actions`: invoke each stored callback in
iteration order, threading the error state and accumulating traces. -/
def run_all_callbacks (env : Env) (subs : List Nat) (r : Registry)
    (es : ErrState) : ErrState × List ErrDelivery × List ProgressEvent :=
  match r with
  | [] => (es, [], [])
  | p :: rest =>
    let r1 := _run_function_with_progress p.2.action_id p.1 p.2.info
      (_install_flatpak env subs p.2.app_id es)
    let r2 := run_all_callbacks env subs rest r1.1
    (r2.1, r1.2.1 ++ r2.2.1, r1.2.2 ++ r2.2.2)

/-- `start_deferred_actions()`: runs every stored callback, then broadcasts a
final `Finished` under the sentinel id `"all_actions"`.  The registry is
returned unchanged (actions are never removed here). -/
def start_deferred_actions (env : Env) (subs : List Nat) (r : Registry)
    (es : ErrState) : Registry × ErrState × List ErrDelivery × List ProgressEvent :=
  let res := run_all_callbacks env subs r es
  (r, res.1, res.2.1, res.2.2 ++ [⟨"all_actions", "all_actions", .Finished, none⟩])

/-- `subscribe_progress(callback)`: appends the callback to the subscriber
list and replays one `Initialized` event per stored action to the new
callback (`info` is `None` when the `"info"` key is absent).  The second
component is the list of events delivered to the new callback. -/
def subscribe_progress (psubs : List Nat) (cb : Nat) (r : Registry) :
    List Nat × List ProgressEvent :=
  (psubs ++ [cb],
   r.map (fun p => ⟨p.2.action_id, p.1, .Initialized, p.2.info⟩))

/-- A concrete environment with dry-run off and no configured base path. -/
def envNoBase : Env :=
  { dry_run := false, script_base_path := none,
    exec := fun _ _ => ⟨"", 0⟩, execStream := fun _ => ⟨[], 0⟩ }

/-- A concrete environment with dry-run on. -/
def envDry : Env :=
  { dry_run := true, script_base_path := none,
    exec := fun _ _ => ⟨"", 0⟩, execStream := fun _ => ⟨[], 0⟩ }

/-- The initial error-channel state at module import. -/
def errState0 : ErrState := ⟨[], 0⟩

/-- C1 counterexample: with dry-run off and no base path,
`run_script_streaming` does NOT report success: it returns `False`, refuting
the claim that every script-runner variant reports success in this
configuration. -/
theorem C1_counterexample :
    (run_script_streaming envNoBase [] "update" [] false true errState0).1 ≠ true := by
  decide

/-- C1 amended: with dry-run off and no base path, `run_script` returns
`True` and `run_script_with_output` returns `(True, "")` without touching the
error channel, while `run_script_streaming` returns `False` — also without
executing anything and without touching the error channel. -/
theorem C1_soft_skip (env : Env) (subs : List Nat) (name : String)
    (args : List String) (root : Bool) (input_data : Option String)
    (hc : Bool) (es : ErrState)
    (hdry : env.dry_run = false) (hbase : env.script_base_path = none) :
    run_script env subs name args root input_data es = (true, es, [])
    ∧ run_script_with_output env subs name args root input_data es
        = ((true, ""), es, [])
    ∧ run_script_streaming env subs name args root hc es = (false, es, [], []) := by
  refine ⟨?_, ?_, ?_⟩ <;>
    simp [run_script, run_script_with_output, run_script_streaming, hdry, hbase]

/-- C1 witness: the amended statement instantiated at a concrete
environment. -/
theorem C1_soft_skip_witness :
    (envNoBase.dry_run = false ∧ envNoBase.script_base_path = none)
    ∧ (run_script envNoBase [] "flatpak" ["org.x"] false none errState0
        = (true, errState0, [])
      ∧ run_script_with_output envNoBase [] "flatpak" ["org.x"] false none errState0
          = ((true, ""), errState0, [])
      ∧ run_script_streaming envNoBase [] "flatpak" ["org.x"] false true errState0
          = (false, errState0, [], [])) :=
  ⟨⟨rfl, rfl⟩,
   C1_soft_skip envNoBase [] "flatpak" ["org.x"] false none true errState0 rfl rfl⟩

/-- C4: with the dry-run flag set, `run_script` returns `True` and
`run_script_with_output` returns `(True, "")`, neither touching the error
state nor producing error deliveries nor consulting the process oracle (the
environment's `exec` is universally quantified); `run_script_streaming`
delivers exactly the serialized canned event sequence to the line callback,
the last canned event is of type `complete`, and it returns `True`. -/
theorem C4_dry_run (env : Env) (subs : List Nat) (name : String)
    (args : List String) (root : Bool) (input_data : Option String)
    (es : ErrState) (hdry : env.dry_run = true) :
    run_script env subs name args root input_data es = (true, es, [])
    ∧ run_script_with_output env subs name args root input_data es
        = ((true, ""), es, [])
    ∧ run_script_streaming env subs name args root true es
        = (true, es, [], fake_events.map jsonDumps)
    ∧ (fake_events.map jsonDumps).getLast?
        = some (jsonDumps (.complete "Update complete (dry run)")) := by
  refine ⟨?_, ?_, ?_, ?_⟩
  · simp [run_script, hdry]
  · simp [run_script_with_output, hdry]
  · simp [run_script_streaming, hdry]
  · decide

/-- C4 witness: the dry-run contract at a concrete environment. -/
theorem C4_dry_run_witness :
    envDry.dry_run = true
    ∧ (run_script envDry [] "flatpak" ["org.x"] false none errState0
        = (true, errState0, [])
      ∧ run_script_with_output envDry [] "flatpak" ["org.x"] false none errState0
          = ((true, ""), errState0, [])
      ∧ run_script_streaming envDry [] "flatpak" ["org.x"] false true errState0
          = (true, errState0, [], fake_events.map jsonDumps)
      ∧ (fake_events.map jsonDumps).getLast?
          = some (jsonDumps (.complete "Update complete (dry run)"))) :=
  ⟨rfl, C4_dry_run envDry [] "flatpak" ["org.x"] false none errState0 rfl⟩

/-- C6: with dry-run off and a configured base path, both blocking runners
succeed exactly when the child's exit code is 0, and on a non-zero exit code
the result state and deliveries are exactly those of handing the captured
combined output to `report_error` (with the returned boolean `False`, and
for the sibling variant the captured output alongside it). -/
theorem C6_exit_code (env : Env) (subs : List Nat) (name : String)
    (args : List String) (root : Bool) (input_data : Option String)
    (es : ErrState) (base : String)
    (hdry : env.dry_run = false) (hbase : env.script_base_path = some base) :
    ((run_script env subs name args root input_data es).1 = true
        ↔ (env.exec (build_command base name args root) input_data).returncode = 0)
    ∧ ((run_script_with_output env subs name args root input_data es).1.1 = true
        ↔ (env.exec (build_command base name args root) input_data).returncode = 0)
    ∧ ((env.exec (build_command base name args root) input_data).returncode ≠ 0 →
        run_script env subs name args root input_data es
          = (false, report_error subs name (build_command base name args root)
              (env.exec (build_command base name args root) input_data).output es)
        ∧ run_script_with_output env subs name args root input_data es
          = ((false, (env.exec (build_command base name args root) input_data).output),
             report_error subs name (build_command base name args root)
              (env.exec (build_command base name args root) input_data).output es)) := by
  refine ⟨?_, ?_, fun hne => ⟨?_, ?_⟩⟩
  · simp only [run_script, hdry, hbase, Bool.false_eq_true, if_false]
    split <;> simp_all
  · simp only [run_script_with_output, hdry, hbase, Bool.false_eq_true, if_false]
    split <;> simp_all
  · simp [run_script, hdry, hbase, hne]
  · simp [run_script_with_output, hdry, hbase, hne]

/-- A concrete environment whose child process always fails with exit code 7
and output "boom". -/
def envFail : Env :=
  { dry_run := false, script_base_path := some "/usr/share/chairlift/scripts",
    exec := fun _ _ => ⟨"boom", 7⟩, execStream := fun _ => ⟨[], 7⟩ }

/-- C6 witness: the exit-code contract at a concrete failing environment. -/
theorem C6_exit_code_witness :
    (envFail.dry_run = false
      ∧ envFail.script_base_path = some "/usr/share/chairlift/scripts")
    ∧ (((run_script envFail [5] "flatpak" ["org.x"] false none errState0).1 = true
        ↔ (envFail.exec
            (build_command "/usr/share/chairlift/scripts" "flatpak" ["org.x"] false)
            none).returncode = 0)
      ∧ ((run_script_with_output envFail [5] "flatpak" ["org.x"] false none
            errState0).1.1 = true
        ↔ (envFail.exec
            (build_command "/usr/share/chairlift/scripts" "flatpak" ["org.x"] false)
            none).returncode = 0)
      ∧ ((envFail.exec
            (build_command "/usr/share/chairlift/scripts" "flatpak" ["org.x"] false)
            none).returncode ≠ 0 →
          run_script envFail [5] "flatpak" ["org.x"] false none errState0
            = (false, report_error [5] "flatpak"
                (build_command "/usr/share/chairlift/scripts" "flatpak" ["org.x"] false)
                (envFail.exec
                  (build_command "/usr/share/chairlift/scripts" "flatpak" ["org.x"] false)
                  none).output errState0)
          ∧ run_script_with_output envFail [5] "flatpak" ["org.x"] false none errState0
            = ((false, (envFail.exec
                (build_command "/usr/share/chairlift/scripts" "flatpak" ["org.x"] false)
                none).output),
               report_error [5] "flatpak"
                (build_command "/usr/share/chairlift/scripts" "flatpak" ["org.x"] false)
                (envFail.exec
                  (build_command "/usr/share/chairlift/scripts" "flatpak" ["org.x"] false)
                  none).output errState0))) :=
  ⟨⟨rfl, rfl⟩,
   C6_exit_code envFail [5] "flatpak" ["org.x"] false none errState0
     "/usr/share/chairlift/scripts" rfl rfl⟩

/-- A concrete environment whose streamed child emits a blank line between
two content lines and exits 0. -/
def envBlankLine : Env :=
  { dry_run := false, script_base_path := some "/scripts",
    exec := fun _ _ => ⟨"", 0⟩,
    execStream := fun _ => ⟨["a", "", "b"], 0⟩ }

/-- C5 counterexample: the streamed child produces three completed lines
(`"a"`, `""`, `"b"`), but the line callback is invoked only twice — the
blank line is filtered out — refuting "once per completed line of output". -/
theorem C5_counterexample :
    (envBlankLine.execStream (build_command "/scripts" "s" [] false)).lines
        = ["a", "", "b"]
    ∧ (run_script_streaming envBlankLine [] "s" [] false true errState0).2.2.2
        = ["a", "b"]
    ∧ (run_script_streaming envBlankLine [] "s" [] false true errState0).2.2.2.length
        ≠ (envBlankLine.execStream (build_command "/scripts" "s" [] false)).lines.length := by
  refine ⟨rfl, ?_, ?_⟩ <;> decide

/-- C5 amended: in non-dry-run mode with a configured base path, the line
callback receives exactly the whitespace-stripped contents of the completed
lines whose stripped content is non-empty, in the order the lines were
produced (dispatch is per line of the stream, not after the whole output). -/
theorem C5_stream_lines (env : Env) (subs : List Nat) (name : String)
    (args : List String) (root : Bool) (es : ErrState) (base : String)
    (hdry : env.dry_run = false) (hbase : env.script_base_path = some base) :
    (run_script_streaming env subs name args root true es).2.2.2
      = ((env.execStream (build_command base name args root)).lines.map
          pystrip).filter (fun l => !(l == "")) := by
  simp only [run_script_streaming, hdry, hbase, Bool.false_eq_true, if_false,
    if_true]
  split <;> rfl

/-- C5 witness: the amended streaming contract at a concrete environment. -/
theorem C5_stream_lines_witness :
    (envBlankLine.dry_run = false ∧ envBlankLine.script_base_path = some "/scripts")
    ∧ (run_script_streaming envBlankLine [] "s" [] false true errState0).2.2.2
      = ((envBlankLine.execStream (build_command "/scripts" "s" [] false)).lines.map
          pystrip).filter (fun l => !(l == "")) :=
  ⟨⟨rfl, rfl⟩,
   C5_stream_lines envBlankLine [] "s" [] false errState0 "/scripts" rfl rfl⟩

/-- The arguments of one `report_error` call. -/
structure ErrCall where
  script_name : String
  command : List String
  message : String
deriving DecidableEq, Repr

/-- A serialized sequence of `report_error` calls: threads the error state
through each call and records every call's subscriber deliveries. -/
def report_errors_from (subs : List Nat) (calls : List ErrCall) (s : ErrState) :
    ErrState × List (List ErrDelivery) :=
  match calls with
  | [] => (s, [])
  | c :: rest =>
    let r := report_error subs c.script_name c.command c.message s
    let r2 := report_errors_from subs rest r.1
    (r2.1, r.2 :: r2.2)

/-- Pairs each list element with its position, starting from `n`. -/
def withIndices (n : Nat) : List ErrCall → List (Nat × ErrCall)
  | [] => []
  | c :: rest => (n, c) :: withIndices (n + 1) rest

/-- Auxiliary characterization of `report_errors_from` from an arbitrary
start state: messages are appended in order, the counter advances by the
number of calls, and call number `k` delivers index `error_count + k` to
every subscriber. -/
theorem report_errors_from_spec (subs : List Nat) (calls : List ErrCall)
    (s : ErrState) :
    (report_errors_from subs calls s).1.errors
        = s.errors ++ calls.map (fun c => c.message)
    ∧ (report_errors_from subs calls s).1.error_count
        = s.error_count + calls.length
    ∧ (report_errors_from subs calls s).2
        = (withIndices s.error_count calls).map
            (fun p => subs.map (fun c => ⟨c, p.2.script_name, p.2.command, p.1⟩)) := by
  induction calls generalizing s with
  | nil => simp [report_errors_from, withIndices]
  | cons c rest ih =>
    obtain ⟨h1, h2, h3⟩ := ih ⟨s.errors ++ [c.message], s.error_count + 1⟩
    refine ⟨?_, ?_, ?_⟩
    · simp [report_errors_from, report_error, h1]
    · simp [report_errors_from, report_error, h2]
      omega
    · simp [report_errors_from, report_error, h3, withIndices]

/-- C2: starting from the initial error state, a serialized sequence of `N`
`report_error` calls appends the messages to the log in call order, advances
the counter to `N`, and the `k`-th call delivers index `k` to every
subscriber — so the delivered indices are exactly `0, 1, ..., N-1` in
strictly increasing order and each index is the position of that call's
message in the append-only log. -/
theorem C2_error_indices (subs : List Nat) (calls : List ErrCall) :
    (report_errors_from subs calls errState0).1.errors
        = calls.map (fun c => c.message)
    ∧ (report_errors_from subs calls errState0).1.error_count = calls.length
    ∧ (report_errors_from subs calls errState0).2
        = (withIndices 0 calls).map
            (fun p => subs.map (fun c => ⟨c, p.2.script_name, p.2.command, p.1⟩)) := by
  have h := report_errors_from_spec subs calls errState0
  simpa [errState0] using h

/-- The boolean result of `run_script` depends only on the environment and
the command, not on the error state or subscriber list. -/
def run_script_success (env : Env) (name : String) (args : List String)
    (root : Bool) (input_data : Option String) : Bool :=
  (run_script env [] name args root input_data errState0).1

theorem run_script_fst (env : Env) (subs : List Nat) (name : String)
    (args : List String) (root : Bool) (input_data : Option String)
    (es : ErrState) :
    (run_script env subs name args root input_data es).1
      = run_script_success env name args root input_data := by
  simp only [run_script, run_script_success]
  split
  · rfl
  · split
    · rfl
    · split <;> rfl

/-- Every progress event broadcast while running the stored callbacks
carries the uid of some stored action. -/
theorem run_all_callbacks_uids (env : Env) (subs : List Nat) (r : Registry)
    (es : ErrState) :
    ∀ e ∈ (run_all_callbacks env subs r es).2.2, e.uid ∈ r.map Prod.fst := by
  induction r generalizing es with
  | nil => simp [run_all_callbacks]
  | cons p rest ih =>
    intro e he
    simp only [run_all_callbacks] at he
    rcases List.mem_append.mp he with h1 | h2
    · have huid : e.uid = p.1 := by
        simp only [_run_function_with_progress, List.mem_cons] at h1
        rcases h1 with rfl | h1
        · rfl
        · split at h1 <;> simp_all
      simp [huid]
    · exact List.mem_cons_of_mem _ (ih _ e h2)

/-- The progress broadcasts of `run_all_callbacks` restricted to one stored
action's uid: exactly `Running` followed by `Finished` or `Failed` according
to the boolean result of that action's `run_script` call. -/
theorem run_all_callbacks_filter (env : Env) (subs : List Nat) (r : Registry)
    (es : ErrState) (uid : String) (a : DeferredAction)
    (hmem : (uid, a) ∈ r) (hnodup : (r.map Prod.fst).Nodup) :
    ((run_all_callbacks env subs r es).2.2).filter (fun e => e.uid == uid)
      = [⟨a.action_id, uid, .Running, a.info⟩,
         ⟨a.action_id, uid,
          if run_script_success env "flatpak" [a.app_id] false none
          then .Finished else .Failed, a.info⟩] := by
  induction r generalizing es with
  | nil => simp at hmem
  | cons p rest ih =>
    have hrest : (rest.map Prod.fst).Nodup :=
      (List.nodup_cons.mp (by simpa using hnodup)).2
    have hhead : p.1 ∉ rest.map Prod.fst :=
      (List.nodup_cons.mp (by simpa using hnodup)).1
    simp only [run_all_callbacks, List.filter_append]
    rcases List.mem_cons.mp hmem with heq | hmemrest
    · subst heq
      have hnil :
          ((run_all_callbacks env subs rest
              (_run_function_with_progress a.action_id uid a.info
                (_install_flatpak env subs a.app_id es)).1).2.2).filter
            (fun e => e.uid == uid) = [] := by
        rw [List.filter_eq_nil_iff]
        intro e he
        have := run_all_callbacks_uids env subs rest _ e he
        simp only [beq_iff_eq]
        intro hcontra
        exact hhead (hcontra ▸ this)
      rw [hnil, List.append_nil]
      have hs := run_script_fst env subs "flatpak" [a.app_id] false none es
      simp only [_run_function_with_progress, _install_flatpak]
      rw [hs]
      split <;> simp
    · have hne : p.1 ≠ uid := by
        intro h
        exact hhead (h ▸ List.mem_map_of_mem Prod.fst hmemrest)
      have hheadnil :
          ((_run_function_with_progress p.2.action_id p.1 p.2.info
              (_install_flatpak env subs p.2.app_id es)).2.2).filter
            (fun e => e.uid == uid) = [] := by
        simp only [_run_function_with_progress]
        split <;> simp [hne]
      rw [hheadnil, List.nil_append]
      exact ih _ hmemrest hrest

/-- C3: for every action stored in the registry (distinct uids, none equal to
the sentinel `"all_actions"`), the progress notifications that
`start_deferred_actions` broadcasts for that action are exactly
`[Running, Finished]` when its `run_script` call succeeds and
`[Running, Failed]` when it fails. -/
theorem C3_progress_sequence (env : Env) (subs : List Nat) (r : Registry)
    (es : ErrState) (uid : String) (a : DeferredAction)
    (hmem : (uid, a) ∈ r) (hnodup : (r.map Prod.fst).Nodup)
    (huid : uid ≠ "all_actions") :
    ((start_deferred_actions env subs r es).2.2.2).filter (fun e => e.uid == uid)
      = [⟨a.action_id, uid, .Running, a.info⟩,
         ⟨a.action_id, uid,
          if run_script_success env "flatpak" [a.app_id] false none
          then .Finished else .Failed, a.info⟩] := by
  simp only [start_deferred_actions, List.filter_append]
  rw [run_all_callbacks_filter env subs r es uid a hmem hnodup]
  simp [Ne.symm huid]

/-- A registry of two deferred installs with distinct uids. -/
def regTwo : Registry :=
  ((install_flatpak_deferred "org.b" "B"
      (install_flatpak_deferred "org.a" "A" []).1).1)

/-- C3 witness: the per-action broadcast sequence at a concrete registry and
a concrete always-failing environment. -/
theorem C3_progress_sequence_witness :
    (("install_flatpakorg.a", (⟨"install_flatpak", some ⟨"org.a", "A"⟩, "org.a"⟩ :
        DeferredAction)) ∈ regTwo
      ∧ (regTwo.map Prod.fst).Nodup
      ∧ "install_flatpakorg.a" ≠ "all_actions")
    ∧ ((start_deferred_actions envFail [] regTwo errState0).2.2.2).filter
        (fun e => e.uid == "install_flatpakorg.a")
      = [⟨"install_flatpak", "install_flatpakorg.a", .Running, some ⟨"org.a", "A"⟩⟩,
         ⟨"install_flatpak", "install_flatpakorg.a",
          if run_script_success envFail "flatpak" ["org.a"] false none
          then .Finished else .Failed, some ⟨"org.a", "A"⟩⟩] :=
  ⟨⟨by decide, by decide, by decide⟩,
   C3_progress_sequence envFail [] regTwo errState0 "install_flatpakorg.a"
     ⟨"install_flatpak", some ⟨"org.a", "A"⟩, "org.a"⟩
     (by decide) (by decide) (by decide)⟩

/-- A sequence of `install_flatpak_deferred` calls with no intervening start
or clear, accumulating the `Initialized` broadcasts. -/
def defer_all (pairs : List (String × String)) (r : Registry) :
    Registry × List ProgressEvent :=
  match pairs with
  | [] => (r, [])
  | q :: rest =>
    let r1 := install_flatpak_deferred q.1 q.2 r
    let r2 := defer_all rest r1.1
    (r2.1, r1.2 ++ r2.2)

theorem dictInsert_keys_mem (k x : String) (v : DeferredAction) (r : Registry) :
    x ∈ (dictInsert k v r).map Prod.fst ↔ x = k ∨ x ∈ r.map Prod.fst := by
  induction r with
  | nil => simp [dictInsert]
  | cons p rest ih =>
    by_cases h : p.1 = k
    · simp [dictInsert, h]
    · simp [dictInsert, h, ih]
      tauto

/-- Python dict assignment preserves distinctness of keys. -/
theorem dictInsert_keys_nodup (k : String) (v : DeferredAction) (r : Registry)
    (h : (r.map Prod.fst).Nodup) : ((dictInsert k v r).map Prod.fst).Nodup := by
  induction r with
  | nil => simp [dictInsert]
  | cons p rest ih =>
    rw [List.map_cons, List.nodup_cons] at h
    by_cases hk : p.1 = k
    · simp only [dictInsert, hk, if_true, List.map_cons, List.nodup_cons]
      exact ⟨hk ▸ h.1, h.2⟩
    · simp only [dictInsert, hk, if_false, List.map_cons, List.nodup_cons]
      refine ⟨?_, ih h.2⟩
      rw [dictInsert_keys_mem]
      rintro (rfl | hcon)
      · exact hk rfl
      · exact h.1 hcon

/-- The registry built by any sequence of defer calls from a registry with
distinct keys again has distinct keys (the dict invariant). -/
theorem defer_all_keys_nodup (pairs : List (String × String)) (r : Registry)
    (h : (r.map Prod.fst).Nodup) :
    (((defer_all pairs r).1).map Prod.fst).Nodup := by
  induction pairs generalizing r with
  | nil => simpa [defer_all]
  | cons q rest ih =>
    exact ih _ (dictInsert_keys_nodup _ _ _ h)

/-- With distinct registry keys, the replay of `subscribe_progress` contains
exactly one `Initialized` event for each stored action, with matching
fields. -/
theorem subscribe_replay_one (r : Registry) (psubs : List Nat) (cb : Nat)
    (hnodup : (r.map Prod.fst).Nodup) (uid : String) (a : DeferredAction)
    (hmem : (uid, a) ∈ r) :
    ((subscribe_progress psubs cb r).2).filter (fun e => e.uid == uid)
      = [⟨a.action_id, uid, .Initialized, a.info⟩] := by
  induction r with
  | nil => simp at hmem
  | cons p rest ih =>
    have hrest : (rest.map Prod.fst).Nodup :=
      (List.nodup_cons.mp (by simpa using hnodup)).2
    have hhead : p.1 ∉ rest.map Prod.fst :=
      (List.nodup_cons.mp (by simpa using hnodup)).1
    simp only [subscribe_progress, List.map_cons, List.filter_cons]
    rcases List.mem_cons.mp hmem with heq | hmemrest
    · subst heq
      simp only [beq_self_eq_true, if_true]
      have hnil : (rest.map
            (fun p => (⟨p.2.action_id, p.1, .Initialized, p.2.info⟩ : ProgressEvent))).filter
          (fun e => e.uid == uid) = [] := by
        rw [List.filter_eq_nil_iff]
        intro e he
        rcases List.mem_map.mp he with ⟨q, hq, rfl⟩
        simp only [beq_iff_eq]
        intro hcontra
        have hq1 : q.1 ∈ rest.map Prod.fst := List.mem_map_of_mem Prod.fst hq
        exact hhead (hcontra ▸ hq1)
      simpa [subscribe_progress] using hnil
    · have hne : p.1 ≠ uid := by
        intro h
        exact hhead (h ▸ List.mem_map_of_mem Prod.fst hmemrest)
      simp only [show ((⟨p.2.action_id, p.1, .Initialized, p.2.info⟩ :
          ProgressEvent).uid == uid) = false by simpa using hne, if_false]
      simpa [subscribe_progress] using ih hrest hmemrest

/-- C7: after a sequence of defer calls with distinct uids and no intervening
start or clear, `subscribe_progress` appends the new callback to the
subscriber list and delivers to it exactly one `Initialized` event per
currently stored action, carrying that action's `action_id`, `uid` and
`info`. -/
theorem C7_subscribe_replay (pairs : List (String × String)) (psubs : List Nat)
    (cb : Nat)
    (hdistinct : (pairs.map (fun q => "install_flatpak" ++ q.1)).Nodup) :
    (subscribe_progress psubs cb (defer_all pairs []).1).1 = psubs ++ [cb]
    ∧ (subscribe_progress psubs cb (defer_all pairs []).1).2
        = ((defer_all pairs []).1).map
            (fun p => ⟨p.2.action_id, p.1, .Initialized, p.2.info⟩)
    ∧ ∀ uid a, (uid, a) ∈ (defer_all pairs []).1 →
        ((subscribe_progress psubs cb (defer_all pairs []).1).2).filter
            (fun e => e.uid == uid)
          = [⟨a.action_id, uid, .Initialized, a.info⟩] := by
  refine ⟨rfl, rfl, fun uid a hmem => ?_⟩
  exact subscribe_replay_one _ psubs cb
    (defer_all_keys_nodup pairs [] (by simp)) uid a hmem

/-- C7 witness: the replay contract at a concrete two-element defer
sequence. -/
theorem C7_subscribe_replay_witness :
    ((([("org.a", "A"), ("org.b", "B")].map
        (fun q => "install_flatpak" ++ q.1)).Nodup)
    ∧ ((subscribe_progress [9] 3 (defer_all [("org.a", "A"), ("org.b", "B")] []).1).1
        = [9] ++ [3]
      ∧ (subscribe_progress [9] 3 (defer_all [("org.a", "A"), ("org.b", "B")] []).1).2
          = ((defer_all [("org.a", "A"), ("org.b", "B")] []).1).map
              (fun p => ⟨p.2.action_id, p.1, .Initialized, p.2.info⟩)
      ∧ ∀ uid a, (uid, a) ∈ (defer_all [("org.a", "A"), ("org.b", "B")] []).1 →
          ((subscribe_progress [9] 3
              (defer_all [("org.a", "A"), ("org.b", "B")] []).1).2).filter
              (fun e => e.uid == uid)
            = [⟨a.action_id, uid, .Initialized, a.info⟩])) :=
  ⟨by decide, C7_subscribe_replay [("org.a", "A"), ("org.b", "B")] [9] 3 (by decide)⟩

/-- C8: `clear_flatpak_deferred` is idempotent — clearing twice leaves the
registry exactly as clearing once. -/
theorem C8_clear_idempotent (r : Registry) :
    clear_flatpak_deferred (clear_flatpak_deferred r) = clear_flatpak_deferred r := by
  simp [clear_flatpak_deferred, List.filter_filter]

/-- C9: `clear_flatpak_deferred` removes exactly the entries whose
`action_id` is `"install_flatpak"`: an entry survives the clear under its uid
iff it was stored and has a different `action_id`. -/
theorem C9_clear_frame (r : Registry) (uid : String) (a : DeferredAction) :
    ((uid, a) ∈ clear_flatpak_deferred r
      ↔ ((uid, a) ∈ r ∧ a.action_id ≠ "install_flatpak")) := by
  simp [clear_flatpak_deferred, List.mem_filter]

/-- C10: `start_deferred_actions` leaves the registry unchanged, so a
progress subscriber registered afterwards receives an `Initialized` replay
for every action in the table — including actions whose execution already
broadcast a terminal `Finished`/`Failed` state. -/
theorem C10_replay_after_start (env : Env) (subs : List Nat) (r : Registry)
    (es : ErrState) (psubs : List Nat) (cb : Nat) :
    (start_deferred_actions env subs r es).1 = r
    ∧ (subscribe_progress psubs cb (start_deferred_actions env subs r es).1).2
        = r.map (fun p => ⟨p.2.action_id, p.1, .Initialized, p.2.info⟩) :=
  ⟨rfl, rfl⟩

end Chairlift
